import Mathlib

-- Shallow embedding of the 7zip-wrapper core (src/core/runner.ts,
-- src/core/errors.ts, src/core/commands.ts, src/core/constants.ts).
-- JavaScript strings are modelled as Lean String values; the JS string
-- operations used by the source (trim, toLowerCase, includes, startsWith,
-- substring, split) are modelled by the js* helpers below, working on the
-- underlying character lists.

-- JS whitespace for trim / parseInt / regex \s, restricted to the ASCII
-- whitespace characters that can occur in 7-Zip output.
def jsWhitespace (c : Char) : Bool :=
  c = ' ' || c = '\t' || c = '\n' || c = '\r' || c = '\x0b' || c = '\x0c'

def trimCharList (cs : List Char) : List Char :=
  ((cs.dropWhile jsWhitespace).reverse.dropWhile jsWhitespace).reverse

-- Model of JS String.prototype.trim.
def jsTrim (s : String) : String := String.mk (trimCharList s.data)

-- Model of JS String.prototype.toLowerCase (ASCII range).
def jsToLower (s : String) : String := String.mk (s.data.map Char.toLower)

-- Model of JS String.prototype.includes.
def jsIncludes (s sub : String) : Bool := decide (sub.data <:+: s.data)

-- Model of JS String.prototype.startsWith.
def jsStartsWith (s pre : String) : Bool := decide (pre.data <+: s.data)

-- Model of JS String.prototype.substring(n) (drop the first n characters).
def jsSubstring (s : String) (n : Nat) : String := String.mk (s.data.drop n)

-- Splitting a character list at every occurrence of a separator character;
-- the empty list yields one empty piece, matching JS String.prototype.split.
def splitCharList (sep : Char) : List Char → List (List Char)
  | [] => [[]]
  | c :: rest =>
    let r := splitCharList sep rest
    if c = sep then [] :: r
    else
      match r with
      | [] => [[c]]
      | h :: t => (c :: h) :: t

-- Model of JS String.prototype.split with a single-character separator.
def jsSplit (s : String) (sep : Char) : List String :=
  (splitCharList sep s.data).map String.mk

-- JS truthiness of an optional string (undefined and the empty string are
-- falsy, every other string is truthy).
def strTruthy : Option String → Bool
  | none => false
  | some s => s != ""

-- JS truthiness of an optional number (undefined and 0 are falsy).
def numTruthy : Option Nat → Bool
  | none => false
  | some n => n != 0

-- Model of JS parseInt(s, 10) || 0 as used by parseListOutput: skip leading
-- whitespace, optional sign, then decimal digits; no digits (NaN) gives 0.
def digitsVal (cs : List Char) : Nat :=
  (cs.takeWhile Char.isDigit).foldl (fun acc c => acc * 10 + (c.toNat - '0'.toNat)) 0

def parseIntOr0 (s : String) : Int :=
  let cs := s.data.dropWhile jsWhitespace
  let signAndDigits : Bool × List Char :=
    match cs with
    | '-' :: rest => (true, rest)
    | '+' :: rest => (false, rest)
    | _ => (false, cs)
  if (signAndDigits.2.takeWhile Char.isDigit).isEmpty then 0
  else if signAndDigits.1 then -(digitsVal signAndDigits.2 : Int)
  else (digitsVal signAndDigits.2 : Int)

-- Exit codes from src/core/constants.ts (EXIT_CODES).
namespace EXIT_CODES

def SUCCESS : Int := 0

def WARNING : Int := 1

def FATAL_ERROR : Int := 2

def COMMAND_LINE_ERROR : Int := 7

def NOT_ENOUGH_MEMORY : Int := 8

def USER_STOPPED : Int := 255

end EXIT_CODES

-- Default timeout from src/core/constants.ts.
def DEFAULT_TIMEOUT_MS : Nat := 30000

-- The typed error taxonomy of src/core/errors.ts, restricted to the
-- variants reachable from parseZipWrapperError and run. Each constructor
-- carries the same data as the corresponding error class.
inductive ZipError where
  | wrongPassword (archivePath : Option String)
  | passwordRequired (archivePath : Option String)
  | corruptArchive (archivePath : String) (details : String)
  | archiveNotFound (archivePath : String)
  | compression (message : String) (exitCode : Option Int)
  | timeout (timeoutMs : Nat) (operation : String)
  | zipWrapper (message : String)
  deriving DecidableEq

-- The text the classifier matches against: the concatenation of stderr and
-- stdout, lower-cased (src/core/errors.ts, line 146).
def classifierText (stderr stdout : String) : String := jsToLower (stderr ++ "\n" ++ stdout)

-- The four substring rules of parseZipWrapperError, in source order.
def matchesWrongPassword (c : String) : Bool :=
  jsIncludes c "wrong password" || jsIncludes c "incorrect password"

def matchesPasswordRequired (c : String) : Bool :=
  jsIncludes c "enter password" || jsIncludes c "password is required"
    || jsIncludes c "encrypted"

def matchesCorrupt (c : String) : Bool :=
  jsIncludes c "data error" || jsIncludes c "crc failed"
    || jsIncludes c "headers error" || jsIncludes c "unexpected end"

def matchesNotFound (c : String) : Bool :=
  jsIncludes c "cannot find archive" || jsIncludes c "cannot open"

-- Model of parseZipWrapperError (src/core/errors.ts, lines 140-180).
-- The nested archive-path check of the source (rule 4 falls through to the
-- default when archivePath is falsy) is modelled by the conjunction with
-- strTruthy archivePath.
def parseZipWrapperError (stderr stdout : String) (exitCode : Option Int)
    (archivePath : Option String) : ZipError :=
  let combined := classifierText stderr stdout
  if matchesWrongPassword combined then
    ZipError.wrongPassword archivePath
  else if matchesPasswordRequired combined then
    ZipError.passwordRequired archivePath
  else if matchesCorrupt combined then
    ZipError.corruptArchive (archivePath.getD "unknown") (jsTrim stderr)
  else if matchesNotFound combined && strTruthy archivePath then
    ZipError.archiveNotFound (archivePath.getD "unknown")
  else
    ZipError.compression (if jsTrim stderr != "" then jsTrim stderr else "Unknown 7-Zip error")
      exitCode

-- ArchiveResult (src/types): the structured result run resolves with.
structure ArchiveResult where
  success : Bool
  command : String
  stdout : String
  stderr : String
  exitCode : Option Int
  deriving DecidableEq

-- Model of the close handler of run (src/core/runner.ts, lines 103-130) for
-- a run that was not killed by the timeout: build the result from the exit
-- code and the captured output, resolve it for exit codes 0 and 1, and
-- reject the classified error for every other exit code. The exit code is
-- an Option Int because Node reports null when the child was killed by a
-- signal.
def closeOutcome (args : List String) (archivePath : Option String)
    (stdout stderr : String) (code : Option Int) : Except ZipError ArchiveResult :=
  let result : ArchiveResult :=
    { success := decide (code = some EXIT_CODES.SUCCESS)
      command := "7za " ++ String.intercalate " " args
      stdout := stdout
      stderr := stderr
      exitCode := code }
  if code = some EXIT_CODES.SUCCESS ∨ code = some EXIT_CODES.WARNING then
    Except.ok result
  else
    Except.error (parseZipWrapperError stderr stdout code archivePath)

-- The resolved result record of the close handler, spelled out.
def closeResult (args : List String) (stdout stderr : String) (code : Option Int) :
    ArchiveResult :=
  { success := decide (code = some EXIT_CODES.SUCCESS)
    command := "7za " ++ String.intercalate " " args
    stdout := stdout
    stderr := stderr
    exitCode := code }

theorem closeOutcome_ok (args : List String) (ap : Option String)
    (stdout stderr : String) (code : Option Int) (h : code = some 0 ∨ code = some 1) :
    closeOutcome args ap stdout stderr code
      = Except.ok (closeResult args stdout stderr code) := by
  rw [closeOutcome]
  exact if_pos h

theorem closeOutcome_err (args : List String) (ap : Option String)
    (stdout stderr : String) (code : Option Int) (h : ¬(code = some 0 ∨ code = some 1)) :
    closeOutcome args ap stdout stderr code
      = Except.error (parseZipWrapperError stderr stdout code ap) := by
  rw [closeOutcome]
  exact if_neg h

/-- C1: the close handler of run resolves a Result exactly for exit codes 0
and 1 (exit code 1 is a non-fatal warning treated as success), and rejects
the Classified Error produced by the error classifier for every other exit
code; in particular exit code 1 with clean stderr resolves while exit code 2
with identical stdout and stderr rejects. -/
theorem run_close_exit_code_boundary (args : List String) (ap : Option String)
    (stdout stderr : String) (code : Option Int) :
    ((∃ r, closeOutcome args ap stdout stderr code = Except.ok r ∧ r.exitCode = code)
        ↔ (code = some 0 ∨ code = some 1)) ∧
      (¬(code = some 0 ∨ code = some 1) →
        closeOutcome args ap stdout stderr code
          = Except.error (parseZipWrapperError stderr stdout code ap)) ∧
      (∃ r, closeOutcome args ap stdout stderr (some 1) = Except.ok r) ∧
      (∃ e, closeOutcome args ap stdout stderr (some 2) = Except.error e) := by
  refine ⟨⟨?_, ?_⟩, closeOutcome_err args ap stdout stderr code, ?_, ?_⟩
  · rintro ⟨r, hr, -⟩
    by_contra h
    rw [closeOutcome_err args ap stdout stderr code h] at hr
    exact Except.noConfusion hr
  · intro h
    exact ⟨closeResult args stdout stderr code,
      closeOutcome_ok args ap stdout stderr code h, rfl⟩
  · exact ⟨_, closeOutcome_ok args ap stdout stderr (some 1) (Or.inr rfl)⟩
  · exact ⟨_, closeOutcome_err args ap stdout stderr (some 2) (by simp)⟩

/-- C1 witness: concrete run of the boundary theorem at exit codes 1 and 2
with clean stderr. -/
theorem run_close_exit_code_boundary_witness :
    (∃ r, closeOutcome ["t", "-bt", "a.7z"] none "out" "" (some 1) = Except.ok r) ∧
      (∃ e, closeOutcome ["t", "-bt", "a.7z"] none "out" "" (some 2) = Except.error e) := by
  have h := run_close_exit_code_boundary ["t", "-bt", "a.7z"] none "out" "" (some 1)
  exact ⟨h.2.2.1, h.2.2.2⟩

-- Per-rule characterizations of the classifier, used to assemble the
-- precedence theorem and reused by later claims.
theorem parseZipWrapperError_rule1 (stderr stdout : String) (ec : Option Int)
    (ap : Option String) (h : matchesWrongPassword (classifierText stderr stdout) = true) :
    parseZipWrapperError stderr stdout ec ap = ZipError.wrongPassword ap := by
  simp [parseZipWrapperError, h]

theorem parseZipWrapperError_rule2 (stderr stdout : String) (ec : Option Int)
    (ap : Option String) (h1 : matchesWrongPassword (classifierText stderr stdout) = false)
    (h2 : matchesPasswordRequired (classifierText stderr stdout) = true) :
    parseZipWrapperError stderr stdout ec ap = ZipError.passwordRequired ap := by
  simp [parseZipWrapperError, h1, h2]

theorem parseZipWrapperError_rule3 (stderr stdout : String) (ec : Option Int)
    (ap : Option String) (h1 : matchesWrongPassword (classifierText stderr stdout) = false)
    (h2 : matchesPasswordRequired (classifierText stderr stdout) = false)
    (h3 : matchesCorrupt (classifierText stderr stdout) = true) :
    parseZipWrapperError stderr stdout ec ap
      = ZipError.corruptArchive (ap.getD "unknown") (jsTrim stderr) := by
  simp [parseZipWrapperError, h1, h2, h3]

theorem parseZipWrapperError_rule4 (stderr stdout : String) (ec : Option Int)
    (ap : Option String) (h1 : matchesWrongPassword (classifierText stderr stdout) = false)
    (h2 : matchesPasswordRequired (classifierText stderr stdout) = false)
    (h3 : matchesCorrupt (classifierText stderr stdout) = false)
    (h4 : matchesNotFound (classifierText stderr stdout) = true)
    (h5 : strTruthy ap = true) :
    parseZipWrapperError stderr stdout ec ap
      = ZipError.archiveNotFound (ap.getD "unknown") := by
  simp [parseZipWrapperError, h1, h2, h3, h4, h5]

theorem parseZipWrapperError_fallback (stderr stdout : String) (ec : Option Int)
    (ap : Option String) (h1 : matchesWrongPassword (classifierText stderr stdout) = false)
    (h2 : matchesPasswordRequired (classifierText stderr stdout) = false)
    (h3 : matchesCorrupt (classifierText stderr stdout) = false)
    (h4 : (matchesNotFound (classifierText stderr stdout) && strTruthy ap) = false) :
    parseZipWrapperError stderr stdout ec ap
      = ZipError.compression
          (if jsTrim stderr != "" then jsTrim stderr else "Unknown 7-Zip error") ec := by
  simp only [parseZipWrapperError, h1, h2, h3, h4]
  simp

/-- C2: the error classifier is a pure, deterministic, case-insensitive
substring match over the concatenation of stderr and stdout, evaluated in
fixed precedence order: wrong/incorrect password first, then password
required/encrypted, then corruption markers, then cannot find/open (only
when an archive path is known), else a generic compression failure carrying
the trimmed stderr or a placeholder plus the exit code. In particular input
containing both "wrong password" and "data error" classifies as
WrongPassword. -/
theorem classifier_precedence (stderr stdout : String) (ec : Option Int)
    (ap : Option String) :
    (matchesWrongPassword (classifierText stderr stdout) = true →
        parseZipWrapperError stderr stdout ec ap = ZipError.wrongPassword ap) ∧
      (matchesWrongPassword (classifierText stderr stdout) = false →
        matchesPasswordRequired (classifierText stderr stdout) = true →
        parseZipWrapperError stderr stdout ec ap = ZipError.passwordRequired ap) ∧
      (matchesWrongPassword (classifierText stderr stdout) = false →
        matchesPasswordRequired (classifierText stderr stdout) = false →
        matchesCorrupt (classifierText stderr stdout) = true →
        parseZipWrapperError stderr stdout ec ap
          = ZipError.corruptArchive (ap.getD "unknown") (jsTrim stderr)) ∧
      (matchesWrongPassword (classifierText stderr stdout) = false →
        matchesPasswordRequired (classifierText stderr stdout) = false →
        matchesCorrupt (classifierText stderr stdout) = false →
        matchesNotFound (classifierText stderr stdout) = true →
        strTruthy ap = true →
        parseZipWrapperError stderr stdout ec ap
          = ZipError.archiveNotFound (ap.getD "unknown")) ∧
      (matchesWrongPassword (classifierText stderr stdout) = false →
        matchesPasswordRequired (classifierText stderr stdout) = false →
        matchesCorrupt (classifierText stderr stdout) = false →
        (matchesNotFound (classifierText stderr stdout) && strTruthy ap) = false →
        parseZipWrapperError stderr stdout ec ap
          = ZipError.compression
              (if jsTrim stderr != "" then jsTrim stderr else "Unknown 7-Zip error") ec) ∧
      parseZipWrapperError "Wrong password? Data error!" "" ec ap
        = ZipError.wrongPassword ap :=
  ⟨parseZipWrapperError_rule1 stderr stdout ec ap,
    parseZipWrapperError_rule2 stderr stdout ec ap,
    parseZipWrapperError_rule3 stderr stdout ec ap,
    parseZipWrapperError_rule4 stderr stdout ec ap,
    parseZipWrapperError_fallback stderr stdout ec ap,
    parseZipWrapperError_rule1 "Wrong password? Data error!" "" ec ap (by decide)⟩

/-- C2 witness: the fallback rule of the precedence theorem evaluated on a
concrete unclassifiable stderr. -/
theorem classifier_precedence_witness :
    parseZipWrapperError "Segmentation fault" "" (some 2) none
      = ZipError.compression "Segmentation fault" (some 2) :=
  ((classifier_precedence "Segmentation fault" "" (some 2) none).2.2.2.2.1
    (by decide) (by decide) (by decide) (by decide)).trans (by decide)

-- One row of a technical listing (src/types ArchiveEntry). The modified
-- field keeps the raw date text of the listing; none stands for the
-- current-instant placeholder new Date() assigned on a Path line. The
-- encrypted field is Option Bool because the per-entry defaults of the
-- source do not assign it.
structure ArchiveEntry where
  path : String
  size : Int
  packedSize : Int
  modified : Option String
  attributes : String
  crc : String
  method : String
  isDirectory : Bool
  encrypted : Option Bool
  deriving DecidableEq

-- The default field values assigned when a Path line starts a new entry
-- (src/core/runner.ts, lines 191-200).
def defaultEntry (p : String) : ArchiveEntry :=
  { path := p
    size := 0
    packedSize := 0
    modified := none
    attributes := ""
    crc := ""
    method := ""
    isDirectory := false
    encrypted := none }

-- The loop state of parseListOutput: the entry under construction and the
-- completed entries so far.
structure LState where
  cur : Option ArchiveEntry
  acc : List ArchiveEntry
  deriving DecidableEq

-- Flush of the entry under construction: the source pushes it only when
-- currentEntry?.path is truthy, i.e. when the path is non-empty.
def flushEntry (e : ArchiveEntry) (acc : List ArchiveEntry) : List ArchiveEntry :=
  if e.path != "" then acc ++ [e] else acc

-- One iteration of the line loop of parseListOutput
-- (src/core/runner.ts, lines 182-219).
def listStep (s : LState) (line : String) : LState :=
  let trimmed := jsTrim line
  if jsStartsWith trimmed "Path = " then
    { cur := some (defaultEntry (jsSubstring trimmed 7))
      acc := match s.cur with
             | some e => flushEntry e s.acc
             | none => s.acc }
  else
    match s.cur with
    | none => s
    | some e =>
      if jsStartsWith trimmed "Size = " then
        { s with cur := some { e with size := parseIntOr0 (jsSubstring trimmed 7) } }
      else if jsStartsWith trimmed "Packed Size = " then
        { s with cur := some { e with packedSize := parseIntOr0 (jsSubstring trimmed 14) } }
      else if jsStartsWith trimmed "Modified = " then
        { s with cur := some { e with modified := some (jsSubstring trimmed 11) } }
      else if jsStartsWith trimmed "Attributes = " then
        { s with cur := some { e with attributes := jsSubstring trimmed 13,
                                      isDirectory := jsIncludes (jsSubstring trimmed 13) "D" } }
      else if jsStartsWith trimmed "CRC = " then
        { s with cur := some { e with crc := jsSubstring trimmed 6 } }
      else if jsStartsWith trimmed "Method = " then
        { s with cur := some { e with method := jsSubstring trimmed 9 } }
      else if jsStartsWith trimmed "Encrypted = " then
        { s with cur := some { e with encrypted := some (jsSubstring trimmed 12 == "+") } }
      else s

-- The final flush after the loop (src/core/runner.ts, lines 221-224).
def finishEntries (s : LState) : List ArchiveEntry :=
  match s.cur with
  | some e => flushEntry e s.acc
  | none => s.acc

def parseListEntries (lines : List String) : List ArchiveEntry :=
  finishEntries (lines.foldl listStep { cur := none, acc := [] })

-- Aggregate statistics of a listing. The source names the last field
-- ratio; it is renamed ratioValue here for tooling reasons, and is modelled
-- as an exact rational in place of the JS float division.
structure ListStats where
  totalSize : Int
  totalPackedSize : Int
  fileCount : Nat
  dirCount : Nat
  ratioValue : ℚ
  deriving DecidableEq

-- The stats loop of parseListOutput (src/core/runner.ts, lines 226-235):
-- directories only bump dirCount, files bump fileCount and both size sums.
def statsStep (st : ListStats) (e : ArchiveEntry) : ListStats :=
  if e.isDirectory then { st with dirCount := st.dirCount + 1 }
  else
    { st with fileCount := st.fileCount + 1
              totalSize := st.totalSize + e.size
              totalPackedSize := st.totalPackedSize + e.packedSize }

def calcListStats (entries : List ArchiveEntry) : ListStats :=
  let c := entries.foldl statsStep
    { totalSize := 0, totalPackedSize := 0, fileCount := 0, dirCount := 0, ratioValue := 0 }
  { c with ratioValue :=
      if c.totalSize > 0 then (c.totalPackedSize : ℚ) / (c.totalSize : ℚ) else 0 }

structure ParsedListOutput where
  entries : List ArchiveEntry
  stats : ListStats
  deriving DecidableEq

-- Model of parseListOutput (src/core/runner.ts, lines 162-247).
def parseListOutput (output : String) : ParsedListOutput :=
  let entries := parseListEntries (jsSplit output '\n')
  { entries := entries, stats := calcListStats entries }

-- Closed form of the stats loop: it adds, on top of the accumulator, the
-- partition counts and the non-directory size sums, and never touches the
-- ratio field.
theorem foldl_statsStep (es : List ArchiveEntry) (a : ListStats) :
    es.foldl statsStep a =
      { totalSize := a.totalSize + ((es.filter fun e => !e.isDirectory).map ArchiveEntry.size).sum
        totalPackedSize :=
          a.totalPackedSize + ((es.filter fun e => !e.isDirectory).map ArchiveEntry.packedSize).sum
        fileCount := a.fileCount + (es.filter fun e => !e.isDirectory).length
        dirCount := a.dirCount + (es.filter fun e => e.isDirectory).length
        ratioValue := a.ratioValue } := by
  induction es generalizing a with
  | nil => simp
  | cons e es ih =>
    simp only [List.foldl_cons, ih, statsStep]
    by_cases h : e.isDirectory <;>
      simp [h, ListStats.mk.injEq, List.filter_cons, add_assoc, add_comm, add_left_comm]

-- Partition of entry count by the directory flag.
theorem filter_length_partition (es : List ArchiveEntry) :
    (es.filter fun e => !e.isDirectory).length + (es.filter fun e => e.isDirectory).length
      = es.length := by
  induction es with
  | nil => rfl
  | cons e es ih =>
    by_cases h : e.isDirectory <;> simp [List.filter_cons, h] <;> omega

/-- C7: for any parsed listing the aggregate statistics partition all
entries into files and directories by the directory flag, the total size
and total packed size sum only the non-directory entries' sizes, and the
ratio equals totalPackedSize / totalSize when totalSize is positive and 0
when totalSize is 0. -/
theorem list_stats_partition (output : String) :
    ((parseListOutput output).stats.fileCount
        = ((parseListOutput output).entries.filter fun e => !e.isDirectory).length) ∧
      ((parseListOutput output).stats.dirCount
        = ((parseListOutput output).entries.filter fun e => e.isDirectory).length) ∧
      ((parseListOutput output).stats.fileCount + (parseListOutput output).stats.dirCount
        = (parseListOutput output).entries.length) ∧
      ((parseListOutput output).stats.totalSize
        = (((parseListOutput output).entries.filter fun e => !e.isDirectory).map
            ArchiveEntry.size).sum) ∧
      ((parseListOutput output).stats.totalPackedSize
        = (((parseListOutput output).entries.filter fun e => !e.isDirectory).map
            ArchiveEntry.packedSize).sum) ∧
      (0 < (parseListOutput output).stats.totalSize →
        (parseListOutput output).stats.ratioValue
          = ((parseListOutput output).stats.totalPackedSize : ℚ)
              / ((parseListOutput output).stats.totalSize : ℚ)) ∧
      ((parseListOutput output).stats.totalSize = 0 →
        (parseListOutput output).stats.ratioValue = 0) := by
  have hstats : (parseListOutput output).stats
      = calcListStats (parseListOutput output).entries := rfl
  rw [hstats]
  generalize (parseListOutput output).entries = es
  refine ⟨?_, ?_, ?_, ?_, ?_, ?_, ?_⟩
  · simp [calcListStats, foldl_statsStep]
  · simp [calcListStats, foldl_statsStep]
  · simp only [calcListStats, foldl_statsStep, zero_add]
    exact filter_length_partition es
  · simp [calcListStats, foldl_statsStep]
  · simp [calcListStats, foldl_statsStep]
  · intro h
    simp only [calcListStats, foldl_statsStep, zero_add] at h ⊢
    rw [if_pos h]
  · intro h
    simp only [calcListStats, foldl_statsStep, zero_add] at h ⊢
    rw [if_neg (by omega)]

/-- C7 witness: the ratio clause evaluated on a concrete two-line listing
with positive total size. -/
theorem list_stats_partition_witness :
    (parseListOutput "Path = a.txt\nSize = 10\nPacked Size = 4").stats.ratioValue
      = ((parseListOutput "Path = a.txt\nSize = 10\nPacked Size = 4").stats.totalPackedSize : ℚ)
          / ((parseListOutput "Path = a.txt\nSize = 10\nPacked Size = 4").stats.totalSize : ℚ) :=
  (list_stats_partition "Path = a.txt\nSize = 10\nPacked Size = 4").2.2.2.2.2.1 (by decide)

-- String facts used to reason about the line-oriented parsers.
theorem strData_append (a b : String) : (a ++ b).data = a.data ++ b.data := rfl

theorem jsStartsWith_append_self (pre r : String) : jsStartsWith (pre ++ r) pre = true := by
  simp only [jsStartsWith, strData_append, decide_eq_true_eq]
  exact List.prefix_append pre.data r.data

theorem jsSubstring_append (pre r : String) : jsSubstring (pre ++ r) pre.data.length = r := by
  simp only [jsSubstring, strData_append, List.drop_left]

-- A well-formed entry block of a technical listing: a Path line whose
-- trimmed form is "Path = " followed by a non-empty path, and follow-up
-- lines none of which trims to another Path line.
structure ListBlock where
  pathLine : String
  entryPath : String
  rest : List String

def ListBlock.linesOf (b : ListBlock) : List String := b.pathLine :: b.rest

def WFBlock (b : ListBlock) : Prop :=
  jsTrim b.pathLine = "Path = " ++ b.entryPath ∧ b.entryPath ≠ "" ∧
    ∀ l ∈ b.rest, jsStartsWith (jsTrim l) "Path = " = false

-- A non-Path line keeps the accumulated entries and the path of the entry
-- under construction.
theorem listStep_nonPath (line : String)
    (h : jsStartsWith (jsTrim line) "Path = " = false) (e : ArchiveEntry)
    (acc : List ArchiveEntry) :
    ∃ e', listStep { cur := some e, acc := acc } line = { cur := some e', acc := acc }
      ∧ e'.path = e.path := by
  simp only [listStep, h, Bool.false_eq_true, if_false]
  repeat' split
  all_goals exact ⟨_, rfl, rfl⟩

theorem listStep_path_some (line p : String) (h : jsTrim line = "Path = " ++ p)
    (e : ArchiveEntry) (acc : List ArchiveEntry) :
    listStep { cur := some e, acc := acc } line
      = { cur := some (defaultEntry p), acc := flushEntry e acc } := by
  have h1 : jsStartsWith (jsTrim line) "Path = " = true := by
    rw [h]; exact jsStartsWith_append_self "Path = " p
  have h2 : jsSubstring (jsTrim line) 7 = p := by
    rw [h]; exact jsSubstring_append "Path = " p
  simp only [listStep, h1, if_true, h2]

theorem listStep_path_none (line p : String) (h : jsTrim line = "Path = " ++ p)
    (acc : List ArchiveEntry) :
    listStep { cur := none, acc := acc } line
      = { cur := some (defaultEntry p), acc := acc } := by
  have h1 : jsStartsWith (jsTrim line) "Path = " = true := by
    rw [h]; exact jsStartsWith_append_self "Path = " p
  have h2 : jsSubstring (jsTrim line) 7 = p := by
    rw [h]; exact jsSubstring_append "Path = " p
  simp only [listStep, h1, if_true, h2]

theorem foldl_listStep_nonPath (rest : List String)
    (hr : ∀ l ∈ rest, jsStartsWith (jsTrim l) "Path = " = false) (e : ArchiveEntry)
    (acc : List ArchiveEntry) :
    ∃ e', rest.foldl listStep { cur := some e, acc := acc } = { cur := some e', acc := acc }
      ∧ e'.path = e.path := by
  induction rest generalizing e with
  | nil => exact ⟨e, rfl, rfl⟩
  | cons l rest ih =>
    obtain ⟨e1, hstep, hpath⟩ := listStep_nonPath l (hr l (by simp)) e acc
    obtain ⟨e', hfold, hpath'⟩ := ih (fun l' hl' => hr l' (by simp [hl'])) e1
    exact ⟨e', by rw [List.foldl_cons, hstep, hfold], by rw [hpath', hpath]⟩

theorem flushEntry_of_ne (e : ArchiveEntry) (acc : List ArchiveEntry) (he : e.path ≠ "") :
    flushEntry e acc = acc ++ [e] := by
  simp [flushEntry, he]

-- Processing one well-formed block starting from an in-progress entry with a
-- non-empty path flushes that entry and leaves the block's entry in progress.
theorem foldl_listStep_block (b : ListBlock) (hb : WFBlock b) (e : ArchiveEntry)
    (acc : List ArchiveEntry) (he : e.path ≠ "") :
    ∃ e', (ListBlock.linesOf b).foldl listStep { cur := some e, acc := acc }
        = { cur := some e', acc := acc ++ [e] } ∧ e'.path = b.entryPath := by
  obtain ⟨h1, _, h3⟩ := hb
  rw [ListBlock.linesOf, List.foldl_cons, listStep_path_some b.pathLine b.entryPath h1 e acc,
    flushEntry_of_ne e acc he]
  obtain ⟨e', hf, hp⟩ := foldl_listStep_nonPath b.rest h3 (defaultEntry b.entryPath) (acc ++ [e])
  exact ⟨e', hf, by rw [hp]; rfl⟩

theorem foldl_listStep_block_none (b : ListBlock) (hb : WFBlock b)
    (acc : List ArchiveEntry) :
    ∃ e', (ListBlock.linesOf b).foldl listStep { cur := none, acc := acc }
        = { cur := some e', acc := acc } ∧ e'.path = b.entryPath := by
  obtain ⟨h1, _, h3⟩ := hb
  rw [ListBlock.linesOf, List.foldl_cons, listStep_path_none b.pathLine b.entryPath h1 acc]
  obtain ⟨e', hf, hp⟩ := foldl_listStep_nonPath b.rest h3 (defaultEntry b.entryPath) acc
  exact ⟨e', hf, by rw [hp]; rfl⟩

-- Processing a sequence of well-formed blocks from an in-progress entry with
-- a non-empty path yields that entry followed by one entry per block, whose
-- paths are the block paths in input order.
theorem finish_foldl_blocks (blocks : List ListBlock) (hwf : ∀ b ∈ blocks, WFBlock b)
    (e : ArchiveEntry) (acc : List ArchiveEntry) (he : e.path ≠ "") :
    ∃ es, finishEntries ((blocks.map ListBlock.linesOf).flatten.foldl listStep
          { cur := some e, acc := acc })
        = acc ++ e :: es ∧ es.map ArchiveEntry.path = blocks.map ListBlock.entryPath := by
  induction blocks generalizing e acc with
  | nil =>
    exact ⟨[], by simp [finishEntries, flushEntry_of_ne e acc he], rfl⟩
  | cons b bs ih =>
    obtain ⟨e1, hb, hp1⟩ := foldl_listStep_block b (hwf b (by simp)) e acc he
    have he1 : e1.path ≠ "" := by rw [hp1]; exact (hwf b (by simp)).2.1
    obtain ⟨es, hes, hmap⟩ := ih (fun b' h' => hwf b' (by simp [h'])) e1 (acc ++ [e]) he1
    refine ⟨e1 :: es, ?_, ?_⟩
    · rw [List.map_cons, List.flatten_cons, List.foldl_append, hb, hes]
      simp
    · simp [hmap, hp1]

-- Entry-count helper shared between the listing claims: the stats loop's
-- file and directory counters always sum to the number of entries.
theorem calc_stats_count (es : List ArchiveEntry) :
    (calcListStats es).fileCount + (calcListStats es).dirCount = es.length := by
  simp only [calcListStats, foldl_statsStep, zero_add]
  exact filter_length_partition es

/-- C4: for all captured stdout consisting of N well-formed Path-delimited
entry blocks, the listing parser returns exactly N entries in input order
(one per block, flushing on each new Path line and at end of input), and
the derived file count plus directory count equals N. -/
theorem listing_parser_block_count (output : String) (blocks : List ListBlock)
    (hsplit : jsSplit output '\n' = (blocks.map ListBlock.linesOf).flatten)
    (hwf : ∀ b ∈ blocks, WFBlock b) :
    (parseListOutput output).entries.length = blocks.length ∧
      (parseListOutput output).entries.map ArchiveEntry.path
        = blocks.map ListBlock.entryPath ∧
      (parseListOutput output).stats.fileCount + (parseListOutput output).stats.dirCount
        = blocks.length := by
  have hentries : (parseListOutput output).entries
      = parseListEntries (jsSplit output '\n') := rfl
  have hstats : (parseListOutput output).stats
      = calcListStats (parseListOutput output).entries := rfl
  have hmain : (parseListOutput output).entries.map ArchiveEntry.path
      = blocks.map ListBlock.entryPath := by
    rw [hentries, hsplit, parseListEntries]
    cases blocks with
    | nil => rfl
    | cons b bs =>
      obtain ⟨e1, hb, hp1⟩ := foldl_listStep_block_none b (hwf b (by simp)) []
      have he1 : e1.path ≠ "" := by rw [hp1]; exact (hwf b (by simp)).2.1
      obtain ⟨es, hes, hmap⟩ :=
        finish_foldl_blocks bs (fun b' h' => hwf b' (by simp [h'])) e1 [] he1
      rw [List.map_cons, List.flatten_cons, List.foldl_append, hb, hes]
      simp [hmap, hp1]
  have hlen : (parseListOutput output).entries.length = blocks.length := by
    have := congrArg List.length hmain
    simpa using this
  refine ⟨hlen, hmain, ?_⟩
  rw [hstats, calc_stats_count, hlen]

/-- C4 witness: the block-count theorem applied to a concrete two-block
listing. -/
theorem listing_parser_block_count_witness :
    (parseListOutput "Path = a.txt\nSize = 10\nPath = b/\nAttributes = D").entries.length = 2 ∧
      (parseListOutput "Path = a.txt\nSize = 10\nPath = b/\nAttributes = D").entries.map
          ArchiveEntry.path = ["a.txt", "b/"] ∧
      (parseListOutput "Path = a.txt\nSize = 10\nPath = b/\nAttributes = D").stats.fileCount
          + (parseListOutput "Path = a.txt\nSize = 10\nPath = b/\nAttributes = D").stats.dirCount
        = 2 :=
  listing_parser_block_count "Path = a.txt\nSize = 10\nPath = b/\nAttributes = D"
    [{ pathLine := "Path = a.txt", entryPath := "a.txt", rest := ["Size = 10"] },
     { pathLine := "Path = b/", entryPath := "b/", rest := ["Attributes = D"] }]
    (by decide)
    (by
      intro b hb
      simp only [List.mem_cons, List.mem_singleton] at hb
      rcases hb with h | h | h
      · subst h
        exact ⟨by decide, by decide, by intro l hl; simp at hl; subst hl; decide⟩
      · subst h
        exact ⟨by decide, by decide, by intro l hl; simp at hl; subst hl; decide⟩
      · exact absurd h (by simp))

-- A prefix test fails when the first characters differ.
theorem jsStartsWith_append_ne_head (a b r : String) (c d : Char) (cs ds : List Char)
    (ha : a.data = c :: cs) (hb : b.data = d :: ds) (hne : c ≠ d) :
    jsStartsWith (a ++ r) b = false := by
  simp only [jsStartsWith, strData_append, ha, hb, List.cons_append, List.cons_prefix_cons,
    decide_eq_false_iff_not]
  exact fun h => hne h.1.symm

-- A non-Path line that is also not an Encrypted line preserves the
-- encrypted field of the entry under construction.
theorem listStep_nonPath_nonEnc (line : String)
    (h : jsStartsWith (jsTrim line) "Path = " = false)
    (h2 : jsStartsWith (jsTrim line) "Encrypted = " = false) (e : ArchiveEntry)
    (acc : List ArchiveEntry) :
    ∃ e', listStep { cur := some e, acc := acc } line = { cur := some e', acc := acc }
      ∧ e'.path = e.path ∧ e'.encrypted = e.encrypted := by
  simp only [listStep, h, h2, Bool.false_eq_true, if_false]
  repeat' split
  all_goals exact ⟨_, rfl, rfl, rfl⟩

theorem listStep_encLine (line v : String)
    (hnp : jsStartsWith (jsTrim line) "Path = " = false)
    (henc : jsTrim line = "Encrypted = " ++ v) (e : ArchiveEntry)
    (acc : List ArchiveEntry) :
    listStep { cur := some e, acc := acc } line
      = { cur := some { e with encrypted := some (v == "+") }, acc := acc } := by
  have h1 : jsStartsWith (jsTrim line) "Size = " = false := by
    rw [henc]
    exact jsStartsWith_append_ne_head "Encrypted = " "Size = " v 'E' 'S'
      ("ncrypted = ".data) ("ize = ".data) (by decide) (by decide) (by decide)
  have h2 : jsStartsWith (jsTrim line) "Packed Size = " = false := by
    rw [henc]
    exact jsStartsWith_append_ne_head "Encrypted = " "Packed Size = " v 'E' 'P'
      ("ncrypted = ".data) ("acked Size = ".data) (by decide) (by decide) (by decide)
  have h3 : jsStartsWith (jsTrim line) "Modified = " = false := by
    rw [henc]
    exact jsStartsWith_append_ne_head "Encrypted = " "Modified = " v 'E' 'M'
      ("ncrypted = ".data) ("odified = ".data) (by decide) (by decide) (by decide)
  have h4 : jsStartsWith (jsTrim line) "Attributes = " = false := by
    rw [henc]
    exact jsStartsWith_append_ne_head "Encrypted = " "Attributes = " v 'E' 'A'
      ("ncrypted = ".data) ("ttributes = ".data) (by decide) (by decide) (by decide)
  have h5 : jsStartsWith (jsTrim line) "CRC = " = false := by
    rw [henc]
    exact jsStartsWith_append_ne_head "Encrypted = " "CRC = " v 'E' 'C'
      ("ncrypted = ".data) ("RC = ".data) (by decide) (by decide) (by decide)
  have h6 : jsStartsWith (jsTrim line) "Method = " = false := by
    rw [henc]
    exact jsStartsWith_append_ne_head "Encrypted = " "Method = " v 'E' 'M'
      ("ncrypted = ".data) ("ethod = ".data) (by decide) (by decide) (by decide)
  have h7 : jsStartsWith (jsTrim line) "Encrypted = " = true := by
    rw [henc]; exact jsStartsWith_append_self "Encrypted = " v
  have h8 : jsSubstring (jsTrim line) 12 = v := by
    rw [henc]; exact jsSubstring_append "Encrypted = " v
  simp only [listStep, hnp, h1, h2, h3, h4, h5, h6, h7, h8, Bool.false_eq_true, if_false,
    if_true]

theorem foldl_listStep_nonPath_nonEnc (rest : List String)
    (hr : ∀ l ∈ rest, jsStartsWith (jsTrim l) "Path = " = false)
    (hr2 : ∀ l ∈ rest, jsStartsWith (jsTrim l) "Encrypted = " = false) (e : ArchiveEntry)
    (acc : List ArchiveEntry) :
    ∃ e', rest.foldl listStep { cur := some e, acc := acc } = { cur := some e', acc := acc }
      ∧ e'.path = e.path ∧ e'.encrypted = e.encrypted := by
  induction rest generalizing e with
  | nil => exact ⟨e, rfl, rfl, rfl⟩
  | cons l rest ih =>
    obtain ⟨e1, hstep, hpath, henc⟩ :=
      listStep_nonPath_nonEnc l (hr l (by simp)) (hr2 l (by simp)) e acc
    obtain ⟨e', hfold, hpath', henc'⟩ :=
      ih (fun l' hl' => hr l' (by simp [hl'])) (fun l' hl' => hr2 l' (by simp [hl'])) e1
    exact ⟨e', by rw [List.foldl_cons, hstep, hfold],
      by rw [hpath', hpath], by rw [henc', henc]⟩

/-- C10: in the listing parser the encrypted flag is assigned only when the
entry's block contains an Encrypted line, and it is true exactly when the
value after "Encrypted = " is the single character "+"; a block without an
Encrypted line leaves the field absent rather than explicitly false, since
the per-entry defaults assigned on a Path line do not include it. -/
theorem listing_encrypted_flag (b : ListBlock) (hb : WFBlock b) :
    ((∀ l ∈ b.rest, jsStartsWith (jsTrim l) "Encrypted = " = false) →
        ∃ e, parseListEntries (ListBlock.linesOf b) = [e] ∧ e.path = b.entryPath
          ∧ e.encrypted = none) ∧
      (∀ r1 lenc v r2, b.rest = r1 ++ lenc :: r2 →
        jsTrim lenc = "Encrypted = " ++ v →
        (∀ l ∈ r2, jsStartsWith (jsTrim l) "Encrypted = " = false) →
        ∃ e, parseListEntries (ListBlock.linesOf b) = [e]
          ∧ e.encrypted = some (v == "+") ∧ (e.encrypted = some true ↔ v = "+")) := by
  obtain ⟨hline, hpath, hrest⟩ := hb
  constructor
  · intro hnoenc
    rw [parseListEntries, ListBlock.linesOf, List.foldl_cons,
      listStep_path_none b.pathLine b.entryPath hline []]
    obtain ⟨e', hf, hp, henc⟩ :=
      foldl_listStep_nonPath_nonEnc b.rest hrest hnoenc (defaultEntry b.entryPath) []
    rw [hf]
    have hp' : e'.path = b.entryPath := hp
    refine ⟨e', ?_, hp', henc⟩
    have hfin : finishEntries { cur := some e', acc := [] } = flushEntry e' [] := rfl
    rw [hfin, flushEntry_of_ne e' [] (by rw [hp']; exact hpath)]
    rfl
  · intro r1 lenc v r2 hsplit henc hr2
    have hr1np : ∀ l ∈ r1, jsStartsWith (jsTrim l) "Path = " = false := fun l hl =>
      hrest l (by rw [hsplit]; simp [hl])
    have hr2np : ∀ l ∈ r2, jsStartsWith (jsTrim l) "Path = " = false := fun l hl =>
      hrest l (by rw [hsplit]; simp [hl])
    have hlencnp : jsStartsWith (jsTrim lenc) "Path = " = false :=
      hrest lenc (by rw [hsplit]; simp)
    rw [parseListEntries, ListBlock.linesOf, List.foldl_cons,
      listStep_path_none b.pathLine b.entryPath hline [], hsplit, List.foldl_append]
    obtain ⟨e1, hf1, hp1⟩ := foldl_listStep_nonPath r1 hr1np (defaultEntry b.entryPath) []
    rw [hf1, List.foldl_cons, listStep_encLine lenc v hlencnp henc e1 []]
    obtain ⟨e', hf2, hp2, henc2⟩ := foldl_listStep_nonPath_nonEnc r2 hr2np hr2
      { e1 with encrypted := some (v == "+") } []
    rw [hf2]
    have hp' : e'.path = b.entryPath := by rw [hp2]; exact hp1
    refine ⟨e', ?_, ?_, ?_⟩
    · have hfin : finishEntries { cur := some e', acc := [] } = flushEntry e' [] := rfl
      rw [hfin, flushEntry_of_ne e' [] (by rw [hp']; exact hpath)]
      rfl
    · rw [henc2]
    · rw [henc2]
      simp

/-- C10 witness: the encrypted-flag theorem applied to a concrete block
without an Encrypted line and to concrete blocks with "Encrypted = +" and
"Encrypted = -" lines. -/
theorem listing_encrypted_flag_witness :
    (∃ e, parseListEntries (ListBlock.linesOf
        { pathLine := "Path = a.txt", entryPath := "a.txt", rest := ["Size = 3"] }) = [e]
      ∧ e.path = "a.txt" ∧ e.encrypted = none) ∧
      (∃ e, parseListEntries (ListBlock.linesOf
          { pathLine := "Path = b.txt", entryPath := "b.txt", rest := ["Encrypted = +"] }) = [e]
        ∧ e.encrypted = some ("+" == "+") ∧ (e.encrypted = some true ↔ "+" = "+")) ∧
      (∃ e, parseListEntries (ListBlock.linesOf
          { pathLine := "Path = c.txt", entryPath := "c.txt", rest := ["Encrypted = -"] }) = [e]
        ∧ e.encrypted = some ("-" == "+") ∧ (e.encrypted = some true ↔ "-" = "+")) := by
  refine ⟨?_, ?_, ?_⟩
  · exact (listing_encrypted_flag
      { pathLine := "Path = a.txt", entryPath := "a.txt", rest := ["Size = 3"] }
      ⟨by decide, by decide, by intro l hl; simp at hl; subst hl; decide⟩).1
      (by intro l hl; simp at hl; subst hl; decide)
  · exact (listing_encrypted_flag
      { pathLine := "Path = b.txt", entryPath := "b.txt", rest := ["Encrypted = +"] }
      ⟨by decide, by decide, by intro l hl; simp at hl; subst hl; decide⟩).2
      [] "Encrypted = +" "+" [] rfl (by decide) (by intro l hl; simp at hl)
  · exact (listing_encrypted_flag
      { pathLine := "Path = c.txt", entryPath := "c.txt", rest := ["Encrypted = -"] }
      ⟨by decide, by decide, by intro l hl; simp at hl; subst hl; decide⟩).2
      [] "Encrypted = -" "-" [] rfl (by decide) (by intro l hl; simp at hl)

-- The error-line test of parseTestOutput (src/core/runner.ts, lines 284-290):
-- a case-insensitive scan for "error", "failed", "cannot", "crc failed".
def testErrLine (line : String) : Bool :=
  let lower := jsToLower line
  jsIncludes lower "error" || jsIncludes lower "failed" || jsIncludes lower "cannot"
    || jsIncludes lower "crc failed"

structure TestParsed where
  ok : Bool
  errors : List String
  deriving DecidableEq

-- One iteration of the scan loop: a matching line is recorded trimmed and
-- forces ok to false.
def testScanStep (st : List String × Bool) (line : String) : List String × Bool :=
  if testErrLine line then (st.1 ++ [jsTrim line], false) else st

-- Model of parseTestOutput (src/core/runner.ts, lines 278-303): scan every
-- line, then let a literal "Everything is Ok" anywhere in the output force
-- the result back to ok with the collected error lines discarded.
def parseTestOutput (output : String) : TestParsed :=
  let scanned := (jsSplit output '\n').foldl testScanStep ([], true)
  if jsIncludes output "Everything is Ok" then { ok := true, errors := [] }
  else { ok := scanned.2, errors := scanned.1 }

-- Closed form of the scan loop: the collected errors are the trimmed
-- matching lines in order, and ok survives only when no line matches.
theorem foldl_testScanStep (lines : List String) (acc : List String) (okacc : Bool) :
    lines.foldl testScanStep (acc, okacc)
      = (acc ++ (lines.filter testErrLine).map jsTrim,
          okacc && !(lines.any testErrLine)) := by
  induction lines generalizing acc okacc with
  | nil => simp
  | cons l ls ih =>
    by_cases h : testErrLine l
    · simp [testScanStep, h, ih]
    · simp [testScanStep, h, ih]

/-- C3: for every input containing the literal phrase "Everything is Ok"
the test-integrity parser returns ok with no errors, regardless of how many
lines match the error substrings and where they occur; without that phrase,
any line matching the error substrings makes ok false and is recorded
trimmed in the error list. -/
theorem test_parser_banner_override (output : String) :
    (jsIncludes output "Everything is Ok" = true →
        parseTestOutput output = { ok := true, errors := [] }) ∧
      (jsIncludes output "Everything is Ok" = false →
        ∀ l ∈ jsSplit output '\n', testErrLine l = true →
          (parseTestOutput output).ok = false
            ∧ jsTrim l ∈ (parseTestOutput output).errors) := by
  constructor
  · intro h
    simp [parseTestOutput, h]
  · intro h l hl herr
    constructor
    · simp [parseTestOutput, h, foldl_testScanStep]
      exact ⟨l, hl, herr⟩
    · simp [parseTestOutput, h, foldl_testScanStep]
      exact ⟨l, ⟨hl, herr⟩, rfl⟩

/-- C3 witness: the banner-override theorem applied to an output containing
both an error-matching line and the banner, and to a bannerless output with
a matching line. -/
theorem test_parser_banner_override_witness :
    parseTestOutput "CRC Failed in x\nEverything is Ok" = { ok := true, errors := [] } ∧
      ((parseTestOutput "  Data Error in y  ").ok = false
        ∧ jsTrim "  Data Error in y  " ∈ (parseTestOutput "  Data Error in y  ").errors) :=
  ⟨(test_parser_banner_override "CRC Failed in x\nEverything is Ok").1 (by decide),
    (test_parser_banner_override "  Data Error in y  ").2 (by decide)
      "  Data Error in y  " (by decide) (by decide)⟩

-- Character classes of the hash-parser regexes: \w, [0-9A-Fa-f] and the
-- dot of JS regexes without the dotAll flag.
def wordChar (c : Char) : Bool := c.isAlphanum || c = '_'

def hexDigit (c : Char) : Bool :=
  c.isDigit || ('a' ≤ c && c ≤ 'f') || ('A' ≤ c && c ≤ 'F')

def dotChar (c : Char) : Bool :=
  !(c = '\n' || c = '\r' || c = ' ' || c = ' ')

-- Match of the regex (\w+)\s+for data:\s+([0-9A-Fa-f]+) anchored at the
-- head of the character list. Word, whitespace and hex classes are mutually
-- disjoint with the literal's first character, so the greedy backtracking
-- semantics of the JS regex collapses to maximal-munch runs.
def matchDataAt (cs : List Char) : Option (List Char × List Char) :=
  let w := cs.takeWhile wordChar
  if w.isEmpty then none
  else
    let r1 := cs.dropWhile wordChar
    if (r1.takeWhile jsWhitespace).isEmpty then none
    else
      let r2 := r1.dropWhile jsWhitespace
      if "for data:".data.isPrefixOf r2 then
        let r3 := r2.drop 9
        if (r3.takeWhile jsWhitespace).isEmpty then none
        else
          let h := (r3.dropWhile jsWhitespace).takeWhile hexDigit
          if h.isEmpty then none else some (w, h)
      else none

-- Unanchored leftmost search of the data regex, one start position at a
-- time, exactly as the JS engine scans.
def matchDataSearch : List Char → Option (List Char × List Char)
  | [] => none
  | c :: rest =>
    match matchDataAt (c :: rest) with
    | some r => some r
    | none => matchDataSearch rest

-- Backtracking split for \s+(.+)$ after the hex prefix: the greedy \s+
-- tries the longest whitespace prefix first, and (.+)$ requires the whole
-- remainder to be non-empty dot characters.
def fileTailSearch : Nat → List Char → Option (List Char)
  | 0, _ => none
  | k + 1, rest =>
    let tail := rest.drop (k + 1)
    if !tail.isEmpty && tail.all dotChar then some tail
    else fileTailSearch k rest

-- Match of the anchored regex ^([0-9A-Fa-f]+)\s+(.+)$ on a whole line. A
-- shorter hex prefix cannot help, because the character right after it
-- would be a hex digit and hex digits are not whitespace.
def matchFileLine (cs : List Char) : Option (List Char × List Char) :=
  let h := cs.takeWhile hexDigit
  if h.isEmpty then none
  else
    let rest := cs.dropWhile hexDigit
    match fileTailSearch (rest.takeWhile jsWhitespace).length rest with
    | some tail => some (h, tail)
    | none => none

-- JS object property assignment on a string-keyed record: overwrite an
-- existing key in place, otherwise append.
def setKey (m : List (String × String)) (k v : String) : List (String × String) :=
  if m.any (fun p => p.1 == k) then m.map (fun p => if p.1 == k then (k, v) else p)
  else m ++ [(k, v)]

-- One iteration of the line loop of parseHashOutput
-- (src/core/runner.ts, lines 256-270): the data shape is tried first and a
-- hit skips the file shape.
def hashLineStep (m : List (String × String)) (line : String) : List (String × String) :=
  match matchDataSearch line.data with
  | some (w, h) => setKey m (jsToLower (String.mk w)) (String.mk h)
  | none =>
    match matchFileLine line.data with
    | some (h, tail) => setKey m (jsTrim (String.mk tail)) (String.mk h)
    | none => m

def parseHashLines (lines : List String) : List (String × String) :=
  lines.foldl hashLineStep []

-- Model of parseHashOutput (src/core/runner.ts, lines 252-273).
def parseHashOutput (output : String) : List (String × String) :=
  parseHashLines (jsSplit output '\n')

/-- C8: the hash parser maps each line of the two recognized shapes — a
"name for data: hex" line keyed by the lower-cased hash name, and a
"hex  filename" line keyed by the trimmed filename — into the returned
mapping and ignores every other line; in particular "SHA256 for data:
DEADBEEF" yields the mapping sha256 to DEADBEEF and "ABCD1234  file.txt"
yields the mapping file.txt to ABCD1234. -/
theorem hash_parser_shapes (xs ys : List String) (l : String) :
    parseHashOutput "SHA256 for data: DEADBEEF" = [("sha256", "DEADBEEF")] ∧
      parseHashOutput "ABCD1234  file.txt" = [("file.txt", "ABCD1234")] ∧
      (matchDataSearch l.data = none → matchFileLine l.data = none →
        parseHashLines (xs ++ l :: ys) = parseHashLines (xs ++ ys)) ∧
      (∀ w h, matchDataSearch l.data = some (w, h) →
        parseHashLines [l] = [(jsToLower (String.mk w), String.mk h)]) ∧
      (∀ hx t, matchDataSearch l.data = none → matchFileLine l.data = some (hx, t) →
        parseHashLines [l] = [(jsTrim (String.mk t), String.mk hx)]) := by
  refine ⟨by decide, by decide, ?_, ?_, ?_⟩
  · intro h1 h2
    rw [parseHashLines, parseHashLines, List.foldl_append, List.foldl_append, List.foldl_cons]
    congr 1
    simp [hashLineStep, h1, h2]
  · intro w h hm
    simp [parseHashLines, hashLineStep, hm, setKey]
  · intro hx t hm1 hm2
    simp [parseHashLines, hashLineStep, hm1, hm2, setKey]

/-- C8 witness: a line matching neither shape is ignored in front of a
file-shape line. -/
theorem hash_parser_shapes_witness :
    parseHashLines ["hello world!", "ABCD1234  file.txt"]
      = parseHashLines ["ABCD1234  file.txt"] :=
  (hash_parser_shapes [] ["ABCD1234  file.txt"] "hello world!").2.2.1 (by decide) (by decide)

-- Configuration of a run: the caller's optional timeout override
-- (options?.timeout ?? DEFAULT_TIMEOUT_MS, src/core/runner.ts line 62).
structure RunConfig where
  timeoutOpt : Option Nat

def effectiveTimeout (c : RunConfig) : Nat := c.timeoutOpt.getD DEFAULT_TIMEOUT_MS

-- The observable events of a run after spawn: the timer callback firing and
-- the child's close notification carrying the exit code and captured output.
inductive RunEvent where
  | timeoutFire
  | close (code : Option Int) (stdout stderr : String)

-- The mutable state of run's promise executor: the killed flag, whether the
-- SIGTERM was sent, whether the timer is gone (never set, fired, or
-- cleared by the close handler), and the settled promise outcome. A promise
-- settles once: later resolutions and rejections are no-ops.
structure RunState where
  killed : Bool
  signalSent : Bool
  timerCleared : Bool
  settled : Option (Except ZipError ArchiveResult)

def initialRunState : RunState :=
  { killed := false, signalSent := false, timerCleared := false, settled := none }

-- First settlement wins, as for a JS promise.
def settle (s : Option (Except ZipError ArchiveResult))
    (v : Except ZipError ArchiveResult) : Option (Except ZipError ArchiveResult) :=
  match s with
  | some r => some r
  | none => some v

-- The operation description of the timeout error: 7za followed by the first
-- argument, the command verb (src/core/runner.ts line 83); an empty vector
-- renders as JS undefined interpolation would.
def timeoutDescription (args : List String) : String := "7za " ++ args.headD "undefined"

-- One event of run's lifecycle (src/core/runner.ts, lines 79-110): the timer
-- fires only when a positive timeout armed it and it was not cleared; it
-- kills the child, marks the run killed and rejects with the Timeout error.
-- The close handler always clears the timer, then is a no-op for a killed
-- run, and otherwise settles with the exit-code outcome.
def runStep (cfg : RunConfig) (args : List String) (ap : Option String)
    (s : RunState) (e : RunEvent) : RunState :=
  match e with
  | RunEvent.timeoutFire =>
    if 0 < effectiveTimeout cfg && !s.timerCleared then
      { killed := true, signalSent := true, timerCleared := true,
        settled := settle s.settled
          (Except.error (ZipError.timeout (effectiveTimeout cfg) (timeoutDescription args))) }
    else s
  | RunEvent.close code stdout stderr =>
    if s.killed then { s with timerCleared := true }
    else
      { killed := s.killed, signalSent := s.signalSent, timerCleared := true,
        settled := settle s.settled (closeOutcome args ap stdout stderr code) }

-- Once a run is killed with its timer gone, no later event can change the
-- settled outcome.
theorem foldl_runStep_after_kill (cfg : RunConfig) (args : List String)
    (ap : Option String) (evs : List RunEvent) (s : RunState) (hk : s.killed = true)
    (ht : s.timerCleared = true) :
    (evs.foldl (runStep cfg args ap) s).settled = s.settled := by
  induction evs generalizing s with
  | nil => rfl
  | cons e evs ih =>
    cases e with
    | timeoutFire =>
      rw [List.foldl_cons]
      have hstep : runStep cfg args ap s RunEvent.timeoutFire = s := by
        simp [runStep, ht]
      rw [hstep]
      exact ih s hk ht
    | close code stdout stderr =>
      rw [List.foldl_cons]
      have hstep : runStep cfg args ap s (RunEvent.close code stdout stderr)
          = { s with timerCleared := true } := by
        simp [runStep, hk]
      rw [hstep]
      exact ih { s with timerCleared := true } hk rfl

/-- C6: when the configured timeout (default 30000 ms, 0 disables the timer)
expires before the child closes, run marks the run as killed, sends the
termination signal, and rejects with a Timeout error carrying the timeout
duration and a short operation description; every later close notification
for the killed run is a no-op, so the run never resolves a Result after
the Timeout rejection. -/
theorem timeout_rejects_then_close_noop (cfg : RunConfig) (args : List String)
    (ap : Option String) (h : 0 < effectiveTimeout cfg) :
    (runStep cfg args ap initialRunState RunEvent.timeoutFire).killed = true ∧
      (runStep cfg args ap initialRunState RunEvent.timeoutFire).signalSent = true ∧
      (runStep cfg args ap initialRunState RunEvent.timeoutFire).settled
        = some (Except.error
            (ZipError.timeout (effectiveTimeout cfg) (timeoutDescription args))) ∧
      (∀ evs : List RunEvent,
        (evs.foldl (runStep cfg args ap)
            (runStep cfg args ap initialRunState RunEvent.timeoutFire)).settled
          = some (Except.error
              (ZipError.timeout (effectiveTimeout cfg) (timeoutDescription args)))) ∧
      effectiveTimeout { timeoutOpt := none } = DEFAULT_TIMEOUT_MS ∧
      (∀ (args2 : List String) (ap2 : Option String),
        runStep { timeoutOpt := some 0 } args2 ap2 initialRunState RunEvent.timeoutFire
          = initialRunState) := by
  have hs1 : runStep cfg args ap initialRunState RunEvent.timeoutFire
      = { killed := true, signalSent := true, timerCleared := true,
          settled := some (Except.error
            (ZipError.timeout (effectiveTimeout cfg) (timeoutDescription args))) } := by
    simp [runStep, initialRunState, settle, h]
  refine ⟨by rw [hs1], by rw [hs1], by rw [hs1], ?_, rfl, ?_⟩
  · intro evs
    rw [hs1, foldl_runStep_after_kill cfg args ap evs _ rfl rfl]
  · intro args2 ap2
    simp [runStep, effectiveTimeout]

/-- C6 witness: the timeout theorem applied with the default configuration,
followed by a concrete close event that is ignored. -/
theorem timeout_rejects_then_close_noop_witness :
    ([RunEvent.close (some 0) "done" ""].foldl
        (runStep { timeoutOpt := none } ["x", "archive.7z"] none)
        (runStep { timeoutOpt := none } ["x", "archive.7z"] none initialRunState
          RunEvent.timeoutFire)).settled
      = some (Except.error
          (ZipError.timeout (effectiveTimeout { timeoutOpt := none })
            (timeoutDescription ["x", "archive.7z"]))) :=
  (timeout_rejects_then_close_noop { timeoutOpt := none } ["x", "archive.7z"] none
    (by decide)).2.2.2.1 [RunEvent.close (some 0) "done" ""]

-- Switches from src/core/constants.ts (SWITCHES).
namespace SWITCHES

def TYPE : String := "-t"

def LEVEL : String := "-mx"

def METHOD : String := "-m0"

def DICT_SIZE : String := "-md"

def WORD_SIZE : String := "-mfbc"

def THREADS : String := "-mmt"

def SOLID : String := "-ms"

def ENCRYPT_HEADERS : String := "-mhe"

def PASSWORD : String := "-p"

def OUTPUT : String := "-o"

def OVERWRITE_ALL : String := "-aoa"

def SKIP_EXISTING : String := "-aos"

def TECH_INFO : String := "-slt"

def VERBOSE : String := "-bb1"

def RECURSE : String := "-r"

def NO_RECURSE : String := "-r-"

def INCLUDE : String := "-i!"

def EXCLUDE : String := "-x!"

def STORE_SYMLINKS : String := "-snl"

def STORE_HARDLINKS : String := "-snh"

def TIMESTAMPS : String := "-bt"

def YES : String := "-y"

def SFX : String := "-sfx"

def VOLUME : String := "-v"

def PRESERVE_PERMISSIONS : String := "-spf"

end SWITCHES

-- Command verbs from src/core/constants.ts (COMMANDS).
namespace COMMANDS

def ADD : String := "a"

def EXTRACT : String := "x"

def EXTRACT_FLAT : String := "e"

def LIST : String := "l"

def TEST : String := "t"

def UPDATE : String := "u"

def DELETE : String := "d"

def RENAME : String := "rn"

def HASH : String := "h"

def INFO : String := "i"

def BENCHMARK : String := "b"

end COMMANDS

-- The archive-path portion of buildArgs: pushed only when truthy.
def archiveArg (archive : Option String) : List String :=
  match archive with
  | some a => if a != "" then [a] else []
  | none => []

-- Model of buildArgs (src/core/runner.ts, lines 351-373): command verb,
-- then switches, then the archive path when truthy, then the files.
def buildArgs (command : String) (switches : List String) (archive : Option String)
    (files : List String) : List String :=
  [command] ++ switches ++ archiveArg archive ++ files

-- Option records of the operations (src/types options.ts), restricted to
-- the fields the command implementations read. JS undefined is none.
structure AddOptions where
  type : Option String
  level : Option Nat
  method : Option String
  dictionarySize : Option String
  wordSize : Option Nat
  threads : Option Nat
  solid : Bool
  sfx : Bool
  volumes : Option String
  password : Option String
  encryptFilenames : Bool
  includePatterns : Option (List String)
  excludePatterns : Option (List String)
  recursive : Option Bool
  followSymlinks : Bool
  storeSymlinks : Bool

structure ExtractOptions where
  outputDir : Option String
  password : Option String
  includePatterns : Option (List String)
  excludePatterns : Option (List String)
  overwrite : Option Bool
  preservePermissions : Bool
  files : Option (List String)
  flat : Bool

structure ListOptions where
  verbose : Bool
  password : Option String

structure UpdateOptions where
  add : Option (List String)
  update : Option (List String)

def passwordSwitch (password : Option String) : List String :=
  if strTruthy password then [SWITCHES.PASSWORD ++ password.getD ""] else []

def patternSwitches (pre : String) (pats : Option (List String)) : List String :=
  match pats with
  | some ps => ps.map (fun p => pre ++ p)
  | none => []

-- Model of validateArchiveExists (src/core/commands.ts, lines 33-37) over an
-- abstract filesystem-existence predicate; the thrown ArchiveNotFoundError
-- is the error branch.
def validateArchiveExists (fs : String → Bool) (archive : String) : Except ZipError Unit :=
  if fs archive then Except.ok () else Except.error (ZipError.archiveNotFound archive)

-- Models of the command implementations of src/core/commands.ts, each
-- reduced to its synchronous prefix: the optional existence validation
-- followed by construction of the argument vector handed to the process
-- runner. An error value means the operation throws before any spawn.
namespace Commands

def addSwitches (o : AddOptions) : List String :=
  (if strTruthy o.type then [SWITCHES.TYPE ++ o.type.getD ""] else []) ++
    (match o.level with
     | some n => [SWITCHES.LEVEL ++ "=" ++ toString n]
     | none => []) ++
    (if strTruthy o.method then [SWITCHES.METHOD ++ "=" ++ o.method.getD ""] else []) ++
    (if strTruthy o.dictionarySize then
      [SWITCHES.DICT_SIZE ++ "=" ++ o.dictionarySize.getD ""] else []) ++
    (match o.wordSize with
     | some n => [SWITCHES.WORD_SIZE ++ "=" ++ toString n]
     | none => []) ++
    (match o.threads with
     | some n => [SWITCHES.THREADS ++ toString n]
     | none => []) ++
    (if o.solid then [SWITCHES.SOLID ++ "=on"] else []) ++
    (if o.sfx then [SWITCHES.SFX] else []) ++
    (if strTruthy o.volumes then [SWITCHES.VOLUME ++ o.volumes.getD ""] else []) ++
    (if strTruthy o.password then
      [SWITCHES.PASSWORD ++ o.password.getD ""]
        ++ (if o.encryptFilenames then [SWITCHES.ENCRYPT_HEADERS ++ "=on"] else [])
     else []) ++
    patternSwitches SWITCHES.INCLUDE o.includePatterns ++
    patternSwitches SWITCHES.EXCLUDE o.excludePatterns ++
    (if o.recursive = some false then [SWITCHES.NO_RECURSE] else [SWITCHES.RECURSE]) ++
    (if o.followSymlinks then
      [SWITCHES.STORE_HARDLINKS ++ "-", SWITCHES.STORE_SYMLINKS ++ "-"] else []) ++
    (if o.storeSymlinks then [SWITCHES.STORE_HARDLINKS, SWITCHES.STORE_SYMLINKS] else []) ++
    [SWITCHES.YES]

def add (fs : String → Bool) (archive : String) (files : List String) (o : AddOptions) :
    Except ZipError (List String) :=
  Except.ok (buildArgs COMMANDS.ADD (addSwitches o) (some archive) files)

def addFromStream (fs : String → Bool) (archive filename : String)
    (password : Option String) (level : Option Nat) (method : Option String) :
    Except ZipError (List String) :=
  let switches := ["-si" ++ filename] ++
    (if strTruthy password then [SWITCHES.PASSWORD ++ password.getD ""] else []) ++
    (if numTruthy level then [SWITCHES.LEVEL ++ "=" ++ toString (level.getD 0)] else []) ++
    (if strTruthy method then [SWITCHES.METHOD ++ "=" ++ method.getD ""] else []) ++
    [SWITCHES.YES]
  Except.ok (buildArgs COMMANDS.ADD switches (some archive) [])

def extract (fs : String → Bool) (archive : String) (o : ExtractOptions) :
    Except ZipError (List String) :=
  match validateArchiveExists fs archive with
  | Except.error e => Except.error e
  | Except.ok _ =>
    let switches := [SWITCHES.YES] ++
      (if strTruthy o.outputDir then [SWITCHES.OUTPUT ++ o.outputDir.getD ""] else []) ++
      passwordSwitch o.password ++
      patternSwitches SWITCHES.INCLUDE o.includePatterns ++
      patternSwitches SWITCHES.EXCLUDE o.excludePatterns ++
      (if o.overwrite = some false then [SWITCHES.SKIP_EXISTING]
       else if o.overwrite = some true then [SWITCHES.OVERWRITE_ALL] else []) ++
      (if o.preservePermissions then [SWITCHES.PRESERVE_PERMISSIONS] else [])
    let command := if o.flat then COMMANDS.EXTRACT_FLAT else COMMANDS.EXTRACT
    Except.ok (buildArgs command switches (some archive) (o.files.getD []))

def extractToStream (fs : String → Bool) (archive filename : String)
    (password : Option String) : Except ZipError (List String) :=
  match validateArchiveExists fs archive with
  | Except.error e => Except.error e
  | Except.ok _ =>
    let switches := ["-so"] ++ passwordSwitch password ++ [SWITCHES.YES]
    Except.ok (buildArgs COMMANDS.EXTRACT switches (some archive) [filename])

def list (fs : String → Bool) (archive : String) (o : ListOptions) :
    Except ZipError (List String) :=
  match validateArchiveExists fs archive with
  | Except.error e => Except.error e
  | Except.ok _ =>
    let switches := [SWITCHES.TECH_INFO] ++
      (if o.verbose then [SWITCHES.VERBOSE] else []) ++ passwordSwitch o.password
    Except.ok (buildArgs COMMANDS.LIST switches (some archive) [])

def update (fs : String → Bool) (archive : String) (o : UpdateOptions) :
    Except ZipError (List String) :=
  match validateArchiveExists fs archive with
  | Except.error e => Except.error e
  | Except.ok _ =>
    let files := (o.add.getD []) ++ (o.update.getD []).map (fun f => "!" ++ f)
    Except.ok (buildArgs COMMANDS.UPDATE [SWITCHES.YES] (some archive) files)

def deleteFiles (fs : String → Bool) (archive : String) (wildcards : List String) :
    Except ZipError (List String) :=
  match validateArchiveExists fs archive with
  | Except.error e => Except.error e
  | Except.ok _ =>
    Except.ok (buildArgs COMMANDS.DELETE [SWITCHES.YES] (some archive) wildcards)

def test (fs : String → Bool) (archive : String) (password : Option String) :
    Except ZipError (List String) :=
  match validateArchiveExists fs archive with
  | Except.error e => Except.error e
  | Except.ok _ =>
    let switches := [SWITCHES.TIMESTAMPS] ++ passwordSwitch password
    Except.ok (buildArgs COMMANDS.TEST switches (some archive) [])

def hash (fs : String → Bool) (files : List String) (hashType : String) :
    Except ZipError (List String) :=
  Except.ok (buildArgs COMMANDS.HASH ["-scrc" ++ hashType] none files)

def hashArchive (fs : String → Bool) (archive : String) (hashType : String) :
    Except ZipError (List String) :=
  match validateArchiveExists fs archive with
  | Except.error e => Except.error e
  | Except.ok _ =>
    Except.ok (buildArgs COMMANDS.HASH ["-scrc" ++ hashType] (some archive) [])

def info (fs : String → Bool) (archive : String) : Except ZipError (List String) :=
  match validateArchiveExists fs archive with
  | Except.error e => Except.error e
  | Except.ok _ =>
    Except.ok (buildArgs COMMANDS.INFO [] (some archive) [])

def rename (fs : String → Bool) (archive oldName newName : String) :
    Except ZipError (List String) :=
  match validateArchiveExists fs archive with
  | Except.error e => Except.error e
  | Except.ok _ =>
    Except.ok (buildArgs COMMANDS.RENAME [SWITCHES.YES] (some archive) [oldName, newName])

def benchmark (methods : Option (List String)) (iterations : Option Nat) :
    Except ZipError (List String) :=
  let switches := [SWITCHES.VERBOSE] ++
    (match methods with
     | some ms => ms.map (fun m => "-mm=" ++ m)
     | none => []) ++
    (if numTruthy iterations then ["-mmt=" ++ toString (iterations.getD 0)] else [])
  Except.ok (buildArgs COMMANDS.BENCHMARK switches none [])

end Commands

-- A string with a given proper prefix cannot equal a string the prefix does
-- not start.
theorem strAppend_ne (pre r t : String) (h : jsStartsWith t pre = false) : pre ++ r ≠ t := by
  intro he
  rw [← he, jsStartsWith_append_self pre r] at h
  exact Bool.noConfusion h

theorem yes_ne_append (pre r : String) (h : jsStartsWith "-y" pre = false) :
    "-y" ≠ pre ++ r :=
  fun he => strAppend_ne pre r "-y" h he.symm

theorem yes_mem_addSwitches (o : AddOptions) : SWITCHES.YES ∈ Commands.addSwitches o := by
  rw [Commands.addSwitches]
  simp [List.mem_append]

theorem yes_not_mem_passwordSwitch (pwd : Option String) : "-y" ∉ passwordSwitch pwd := by
  rw [passwordSwitch]
  split
  · simp only [List.mem_singleton]
    exact yes_ne_append SWITCHES.PASSWORD (pwd.getD "") (by decide)
  · simp

/-- C9: the archive-consuming operations extract, list, update, deleteFiles,
test, info, rename, hashArchive and extractToStream fail with
ArchiveNotFoundError synchronously, before any argument vector is produced
for a spawn, whenever the archive path does not exist on the filesystem;
the operations add, addFromStream and hash perform no existence pre-check
and always produce their argument vector. -/
theorem archive_existence_precheck (fs : String → Bool) (archive : String)
    (eo : ExtractOptions) (lo : ListOptions) (uo : UpdateOptions) (ao : AddOptions)
    (wildcards files : List String) (pwd method : Option String) (level : Option Nat)
    (hashType filename oldName newName : String) (h : fs archive = false) :
    Commands.extract fs archive eo = Except.error (ZipError.archiveNotFound archive) ∧
      Commands.list fs archive lo = Except.error (ZipError.archiveNotFound archive) ∧
      Commands.update fs archive uo = Except.error (ZipError.archiveNotFound archive) ∧
      Commands.deleteFiles fs archive wildcards
        = Except.error (ZipError.archiveNotFound archive) ∧
      Commands.test fs archive pwd = Except.error (ZipError.archiveNotFound archive) ∧
      Commands.info fs archive = Except.error (ZipError.archiveNotFound archive) ∧
      Commands.rename fs archive oldName newName
        = Except.error (ZipError.archiveNotFound archive) ∧
      Commands.hashArchive fs archive hashType
        = Except.error (ZipError.archiveNotFound archive) ∧
      Commands.extractToStream fs archive filename pwd
        = Except.error (ZipError.archiveNotFound archive) ∧
      (∃ a, Commands.add fs archive files ao = Except.ok a) ∧
      (∃ a, Commands.addFromStream fs archive filename pwd level method = Except.ok a) ∧
      (∃ a, Commands.hash fs files hashType = Except.ok a) := by
  have hv : validateArchiveExists fs archive
      = Except.error (ZipError.archiveNotFound archive) := by
    simp [validateArchiveExists, h]
  refine ⟨?_, ?_, ?_, ?_, ?_, ?_, ?_, ?_, ?_, ⟨_, rfl⟩, ⟨_, rfl⟩, ⟨_, rfl⟩⟩
  · rw [Commands.extract, hv]
  · rw [Commands.list, hv]
  · rw [Commands.update, hv]
  · rw [Commands.deleteFiles, hv]
  · rw [Commands.test, hv]
  · rw [Commands.info, hv]
  · rw [Commands.rename, hv]
  · rw [Commands.hashArchive, hv]
  · rw [Commands.extractToStream, hv]

/-- C9 witness: the pre-check theorem applied to a missing concrete archive
path. -/
theorem archive_existence_precheck_witness :
    Commands.extract (fun _ => false) "missing.7z"
        { outputDir := none, password := none, includePatterns := none,
          excludePatterns := none, overwrite := none, preservePermissions := false,
          files := none, flat := false }
      = Except.error (ZipError.archiveNotFound "missing.7z") ∧
      (∃ a, Commands.add (fun _ => false) "missing.7z" ["f.txt"]
          { type := none, level := none, method := none, dictionarySize := none,
            wordSize := none, threads := none, solid := false, sfx := false,
            volumes := none, password := none, encryptFilenames := false,
            includePatterns := none, excludePatterns := none, recursive := none,
            followSymlinks := false, storeSymlinks := false }
        = Except.ok a) :=
  ⟨(archive_existence_precheck (fun _ => false) "missing.7z"
      { outputDir := none, password := none, includePatterns := none,
        excludePatterns := none, overwrite := none, preservePermissions := false,
        files := none, flat := false }
      { verbose := false, password := none }
      { add := none, update := none }
      { type := none, level := none, method := none, dictionarySize := none,
        wordSize := none, threads := none, solid := false, sfx := false,
        volumes := none, password := none, encryptFilenames := false,
        includePatterns := none, excludePatterns := none, recursive := none,
        followSymlinks := false, storeSymlinks := false }
      [] ["f.txt"] none none none "crc32" "f.txt" "o" "n" rfl).1,
    (archive_existence_precheck (fun _ => false) "missing.7z"
      { outputDir := none, password := none, includePatterns := none,
        excludePatterns := none, overwrite := none, preservePermissions := false,
        files := none, flat := false }
      { verbose := false, password := none }
      { add := none, update := none }
      { type := none, level := none, method := none, dictionarySize := none,
        wordSize := none, threads := none, solid := false, sfx := false,
        volumes := none, password := none, encryptFilenames := false,
        includePatterns := none, excludePatterns := none, recursive := none,
        followSymlinks := false, storeSymlinks := false }
      [] ["f.txt"] none none none "crc32" "f.txt" "o" "n" rfl).2.2.2.2.2.2.2.2.2.1⟩

/-- C5 counterexample: the test operation produces an argument vector that
does not contain the unattended-confirmation switch, so not every produced
vector contains it. -/
theorem unattended_switch_counterexample :
    Commands.test (fun _ => true) "archive.7z" none
      = Except.ok [COMMANDS.TEST, SWITCHES.TIMESTAMPS, "archive.7z"] ∧
      SWITCHES.YES ∉ [COMMANDS.TEST, SWITCHES.TIMESTAMPS, "archive.7z"] := by
  exact ⟨rfl, by decide⟩

theorem not_mem_buildArgs (x cmd : String) (sw : List String) (archive : Option String)
    (files : List String) (h1 : x ≠ cmd) (h2 : x ∉ sw)
    (h3 : ∀ a, archive = some a → x ≠ a) (h4 : x ∉ files) :
    x ∉ buildArgs cmd sw archive files := by
  rw [buildArgs]
  intro hmem
  rcases List.mem_append.mp hmem with hmem | hmem
  · rcases List.mem_append.mp hmem with hmem | hmem
    · rcases List.mem_append.mp hmem with hmem | hmem
      · exact h1 (List.mem_singleton.mp hmem)
      · exact h2 hmem
    · cases archive with
      | none => simp [archiveArg] at hmem
      | some a =>
        rw [archiveArg] at hmem
        split at hmem
        · exact h3 a rfl (List.mem_singleton.mp hmem)
        · simp at hmem
  · exact h4 hmem

theorem mem_buildArgs_switches (x cmd : String) (sw : List String)
    (archive : Option String) (files : List String) (h : x ∈ sw) :
    x ∈ buildArgs cmd sw archive files := by
  rw [buildArgs]
  exact List.mem_append.mpr (Or.inl (List.mem_append.mpr (Or.inl
    (List.mem_append.mpr (Or.inr h)))))

/-- C5 amended: the argument vectors produced for add, extract, update,
delete and rename always contain the unattended-confirmation switch "-y",
while the vectors produced for list, test, hash, info and benchmark never
contain it (as long as no caller-supplied archive path or file selector is
itself the literal "-y"). -/
theorem unattended_switch_amended (fs : String → Bool) (archive : String)
    (ao : AddOptions) (eo : ExtractOptions) (lo : ListOptions) (uo : UpdateOptions)
    (files wildcards : List String) (pwd : Option String)
    (hashType oldName newName : String) :
    (∀ a, Commands.add fs archive files ao = Except.ok a → SWITCHES.YES ∈ a) ∧
      (∀ a, Commands.extract fs archive eo = Except.ok a → SWITCHES.YES ∈ a) ∧
      (∀ a, Commands.update fs archive uo = Except.ok a → SWITCHES.YES ∈ a) ∧
      (∀ a, Commands.deleteFiles fs archive wildcards = Except.ok a → SWITCHES.YES ∈ a) ∧
      (∀ a, Commands.rename fs archive oldName newName = Except.ok a → SWITCHES.YES ∈ a) ∧
      (archive ≠ "-y" →
        ∀ a, Commands.list fs archive lo = Except.ok a → SWITCHES.YES ∉ a) ∧
      (archive ≠ "-y" →
        ∀ a, Commands.test fs archive pwd = Except.ok a → SWITCHES.YES ∉ a) ∧
      ("-y" ∉ files →
        ∀ a, Commands.hash fs files hashType = Except.ok a → SWITCHES.YES ∉ a) ∧
      (archive ≠ "-y" →
        ∀ a, Commands.info fs archive = Except.ok a → SWITCHES.YES ∉ a) ∧
      (∀ (ms : Option (List String)) (iter : Option Nat) a,
        Commands.benchmark ms iter = Except.ok a → SWITCHES.YES ∉ a) := by
  have hokcase : ∀ {β : Type} (v : Except ZipError β) (a : β), v = Except.ok a → True :=
    fun _ _ _ => trivial
  refine ⟨?_, ?_, ?_, ?_, ?_, ?_, ?_, ?_, ?_, ?_⟩
  · intro a ha
    rw [Commands.add] at ha
    injection ha with ha
    subst ha
    exact mem_buildArgs_switches _ _ _ _ _ (yes_mem_addSwitches ao)
  · intro a ha
    rw [Commands.extract] at ha
    cases hfs : fs archive
    · rw [validateArchiveExists, hfs] at ha
      simp at ha
    · rw [validateArchiveExists, hfs] at ha
      simp only [if_true] at ha
      injection ha with ha
      subst ha
      refine mem_buildArgs_switches _ _ _ _ _ ?_
      exact List.mem_append.mpr (Or.inl (List.mem_append.mpr (Or.inl
        (List.mem_append.mpr (Or.inl (List.mem_append.mpr (Or.inl
          (List.mem_append.mpr (Or.inl (List.mem_append.mpr (Or.inl
            (List.mem_append.mpr (Or.inl (List.mem_singleton.mpr rfl))))))))))))))
  · intro a ha
    rw [Commands.update] at ha
    cases hfs : fs archive
    · rw [validateArchiveExists, hfs] at ha
      simp at ha
    · rw [validateArchiveExists, hfs] at ha
      simp only [if_true] at ha
      injection ha with ha
      subst ha
      exact mem_buildArgs_switches _ _ _ _ _ (List.mem_singleton.mpr rfl)
  · intro a ha
    rw [Commands.deleteFiles] at ha
    cases hfs : fs archive
    · rw [validateArchiveExists, hfs] at ha
      simp at ha
    · rw [validateArchiveExists, hfs] at ha
      simp only [if_true] at ha
      injection ha with ha
      subst ha
      exact mem_buildArgs_switches _ _ _ _ _ (List.mem_singleton.mpr rfl)
  · intro a ha
    rw [Commands.rename] at ha
    cases hfs : fs archive
    · rw [validateArchiveExists, hfs] at ha
      simp at ha
    · rw [validateArchiveExists, hfs] at ha
      simp only [if_true] at ha
      injection ha with ha
      subst ha
      exact mem_buildArgs_switches _ _ _ _ _ (List.mem_singleton.mpr rfl)
  · intro hne a ha
    rw [Commands.list] at ha
    cases hfs : fs archive
    · rw [validateArchiveExists, hfs] at ha
      simp at ha
    · rw [validateArchiveExists, hfs] at ha
      simp only [if_true] at ha
      injection ha with ha
      subst ha
      refine not_mem_buildArgs _ _ _ _ _ (by decide) ?_
        (fun b hb => by cases hb; exact fun he => hne he.symm) (by simp)
      intro hm
      rcases List.mem_append.mp hm with hm | hm
      · rcases List.mem_append.mp hm with hm | hm
        · exact absurd (List.mem_singleton.mp hm) (by decide)
        · revert hm
          split
          · intro hm
            exact absurd (List.mem_singleton.mp hm) (by decide)
          · simp
      · exact yes_not_mem_passwordSwitch lo.password hm
  · intro hne a ha
    rw [Commands.test] at ha
    cases hfs : fs archive
    · rw [validateArchiveExists, hfs] at ha
      simp at ha
    · rw [validateArchiveExists, hfs] at ha
      simp only [if_true] at ha
      injection ha with ha
      subst ha
      refine not_mem_buildArgs _ _ _ _ _ (by decide) ?_
        (fun b hb => by cases hb; exact fun he => hne he.symm) (by simp)
      intro hm
      rcases List.mem_append.mp hm with hm | hm
      · exact absurd (List.mem_singleton.mp hm) (by decide)
      · exact yes_not_mem_passwordSwitch pwd hm
  · intro hfiles a ha
    rw [Commands.hash] at ha
    injection ha with ha
    subst ha
    refine not_mem_buildArgs _ _ _ _ _ (by decide) ?_ (by simp) hfiles
    intro hm
    exact absurd (List.mem_singleton.mp hm) (yes_ne_append "-scrc" hashType (by decide))
  · intro hne a ha
    rw [Commands.info] at ha
    cases hfs : fs archive
    · rw [validateArchiveExists, hfs] at ha
      simp at ha
    · rw [validateArchiveExists, hfs] at ha
      simp only [if_true] at ha
      injection ha with ha
      subst ha
      exact not_mem_buildArgs _ _ _ _ _ (by decide) (by simp)
        (fun b hb => by cases hb; exact fun he => hne he.symm) (by simp)
  · intro ms iter a ha
    rw [Commands.benchmark.eq_def] at ha
    injection ha with ha
    subst ha
    refine not_mem_buildArgs _ _ _ _ _ (by decide) ?_ (by simp) (by simp)
    intro hm
    rcases List.mem_append.mp hm with hm | hm
    · rcases List.mem_append.mp hm with hm | hm
      · exact absurd (List.mem_singleton.mp hm) (by decide)
      · cases ms with
        | none => simp at hm
        | some msl =>
          rcases List.mem_map.mp hm with ⟨m, _, hme⟩
          exact strAppend_ne "-mm=" m "-y" (by decide) hme
    · revert hm
      split
      · intro hm
        exact absurd (List.mem_singleton.mp hm)
          (yes_ne_append "-mmt=" (toString (iter.getD 0)) (by decide))
      · simp

/-- C5 amended witness: a concrete update vector contains the switch and a
concrete list vector does not. -/
theorem unattended_switch_amended_witness :
    SWITCHES.YES ∈ [COMMANDS.UPDATE, SWITCHES.YES, "a.7z"] ∧
      SWITCHES.YES ∉ [COMMANDS.LIST, SWITCHES.TECH_INFO, "a.7z"] :=
  ⟨(unattended_switch_amended (fun _ => true) "a.7z"
      { type := none, level := none, method := none, dictionarySize := none,
        wordSize := none, threads := none, solid := false, sfx := false,
        volumes := none, password := none, encryptFilenames := false,
        includePatterns := none, excludePatterns := none, recursive := none,
        followSymlinks := false, storeSymlinks := false }
      { outputDir := none, password := none, includePatterns := none,
        excludePatterns := none, overwrite := none, preservePermissions := false,
        files := none, flat := false }
      { verbose := false, password := none }
      { add := none, update := none }
      [] [] none "crc32" "o" "n").2.2.1 [COMMANDS.UPDATE, SWITCHES.YES, "a.7z"] rfl,
    (unattended_switch_amended (fun _ => true) "a.7z"
      { type := none, level := none, method := none, dictionarySize := none,
        wordSize := none, threads := none, solid := false, sfx := false,
        volumes := none, password := none, encryptFilenames := false,
        includePatterns := none, excludePatterns := none, recursive := none,
        followSymlinks := false, storeSymlinks := false }
      { outputDir := none, password := none, includePatterns := none,
        excludePatterns := none, overwrite := none, preservePermissions := false,
        files := none, flat := false }
      { verbose := false, password := none }
      { add := none, update := none }
      [] [] none "crc32" "o" "n").2.2.2.2.2.1 (by decide)
      [COMMANDS.LIST, SWITCHES.TECH_INFO, "a.7z"] rfl⟩
